import Mathlib

/-!
Verification of the status-filter / query-parameter / list-page mechanism of
the openfront admin dashboard, embedded shallowly from:

  * src/features/platform/components/StatusTabs.tsx
  * src/features/platform/inventory/screens/InventoryListPageClient.tsx
  * the API-key creation dialog (generateApiKeyToken)

A browser query string is modelled as the association list of its decoded
key/value pairs, in order.  `URLSearchParams.toString` followed by re-parsing
(what `useSearchParams` sees after `router.push`) is the identity on this
representation, because the x-www-form-urlencoded serializer escapes every
character that needs escaping; so serialization is elided and `set`/`delete`/
`get` act directly on the pair list, with the exact JS semantics:
`set` overwrites the first occurrence in place and drops later duplicates
(appending when absent), `delete` drops every occurrence, `get` returns the
first value or null (`Option`).
-/

/-- One query string: decoded key/value pairs in order. -/
abbrev Query := List (String × String)

/-- `URLSearchParams.get`: first value for the key, or null. -/
def getParam : Query → String → Option String
  | [], _ => none
  | (k', v') :: rest, k => if k' = k then some v' else getParam rest k

/-- `URLSearchParams.delete`: remove every pair with the key. -/
def deleteParam : Query → String → Query
  | [], _ => []
  | (k', v') :: rest, k =>
      if k' = k then deleteParam rest k else (k', v') :: deleteParam rest k

/-- `URLSearchParams.set`: replace the first occurrence in place, drop the
rest; append when the key is absent. -/
def setParam : Query → String → String → Query
  | [], k, v => [(k, v)]
  | (k', v') :: rest, k, v =>
      if k' = k then (k, v) :: deleteParam rest k
      else (k', v') :: setParam rest k v

theorem getParam_setParam_self (q : Query) (k v : String) :
    getParam (setParam q k v) k = some v := by
  induction q with
  | nil => simp [setParam, getParam]
  | cons p rest ih =>
      by_cases h : p.1 = k
      · simp [setParam, h, getParam]
      · simp [setParam, h, getParam, ih]

theorem getParam_deleteParam_self (q : Query) (k : String) :
    getParam (deleteParam q k) k = none := by
  induction q with
  | nil => rfl
  | cons p rest ih =>
      obtain ⟨a, b⟩ := p
      by_cases h : a = k
      · simpa [deleteParam, h] using ih
      · simpa [deleteParam, h, getParam] using ih

theorem getParam_deleteParam_ne (q : Query) (k k' : String) (h : k' ≠ k) :
    getParam (deleteParam q k) k' = getParam q k' := by
  induction q with
  | nil => rfl
  | cons p rest ih =>
      obtain ⟨a, b⟩ := p
      by_cases hp : a = k
      · have hkk' : ¬ k = k' := fun e => h e.symm
        simp [deleteParam, hp, getParam, hkk', ih]
      · by_cases hk' : a = k'
        · simp [deleteParam, hp, getParam, hk', h]
        · simp [deleteParam, hp, getParam, hk', ih]

theorem getParam_setParam_ne (q : Query) (k v k' : String) (h : k' ≠ k) :
    getParam (setParam q k v) k' = getParam q k' := by
  induction q with
  | nil =>
      have : ¬ k = k' := fun e => h e.symm
      simp [setParam, getParam, this]
  | cons p rest ih =>
      obtain ⟨a, b⟩ := p
      by_cases hp : a = k
      · have hkk' : ¬ k = k' := fun e => h e.symm
        simp [setParam, hp, getParam, hkk', getParam_deleteParam_ne rest k k' h]
      · by_cases hk' : a = k'
        · simp [setParam, hp, getParam, hk', h]
        · simp [setParam, hp, getParam, hk', ih]

/-- JSON string-literal escaping of one character, as `JSON.stringify` does
it: quote and backslash get a backslash escape, control characters below
0x20 get their short escape or a \u00XX escape, everything else passes
through. -/
def jsonQuoteChar (c : Char) : List Char :=
  if c = '"' then ['\\', '"']
  else if c = '\\' then ['\\', '\\']
  else if c.toNat ≥ 0x20 then [c]
  else if c.toNat = 0x08 then ['\\', 'b']
  else if c.toNat = 0x09 then ['\\', 't']
  else if c.toNat = 0x0a then ['\\', 'n']
  else if c.toNat = 0x0c then ['\\', 'f']
  else if c.toNat = 0x0d then ['\\', 'r']
  else
    let hex := fun (n : Nat) =>
      if n < 10 then Char.ofNat ('0'.toNat + n) else Char.ofNat ('a'.toNat + n - 10)
    ['\\', 'u', '0', '0', hex (c.toNat / 16), hex (c.toNat % 16)]

/-- `JSON.stringify` of a string value. -/
def jsonQuote (s : String) : String :=
  ⟨'"' :: (s.data.flatMap jsonQuoteChar) ++ ['"']⟩

/-- `JSON.stringify([status])`: the single-element array written into the
`!status_matches` parameter by `handleStatusChange`. -/
def stringifyStatusArray (status : String) : String :=
  ⟨'[' :: (jsonQuote status).data ++ [']']⟩

/-- `handleStatusChange` of StatusTabs.tsx: copy the current params, set
page to "1", then delete `!status_matches` for "all" or set it to the
JSON-stringified singleton array otherwise.  The result is the query of the
URL pushed to the router. -/
def handleStatusChange (q : Query) (status : String) : Query :=
  let params := setParam q "page" "1"
  if status = "all" then deleteParam params "!status_matches"
  else setParam params "!status_matches" (stringifyStatusArray status)

/-- `handlePageChange` of InventoryListPageClient.tsx: `newPage && newPage > 1`
sets page to its decimal string, otherwise the page parameter is deleted. -/
def handlePageChange (q : Query) (newPage : Int) : Query :=
  if newPage ≠ 0 ∧ newPage > 1 then setParam q "page" (toString newPage)
  else deleteParam q "page"

/-!
`decodeURIComponent`.  The JS builtin replaces each maximal run of `%XX`
escape sequences by the strict UTF-8 decoding of the escaped bytes and
throws a URIError on an incomplete escape, a non-hex escape, or bytes that
are not well-formed UTF-8 (overlong forms and surrogate encodings
included).  The thrown URIError is modelled as `none`.
-/

/-- Value of one hex digit, upper or lower case. -/
def hexDigitVal? (c : Char) : Option Nat :=
  let n := c.toNat
  if 48 ≤ n ∧ n ≤ 57 then some (n - 48)        -- '0'..'9'
  else if 65 ≤ n ∧ n ≤ 70 then some (n - 55)   -- 'A'..'F'
  else if 97 ≤ n ∧ n ≤ 102 then some (n - 87)  -- 'a'..'f'
  else none

/-- A scanned unit of the escaped string: a plain character or an escaped byte. -/
inductive PctTok where
  | ch (c : Char)
  | byte (b : Nat)

/-- Scan `%XX` escapes; `none` on an incomplete or non-hex escape. -/
def pctTokens : List Char → Option (List PctTok)
  | [] => some []
  | '%' :: h1 :: h2 :: rest => do
      let a ← hexDigitVal? h1
      let b ← hexDigitVal? h2
      let ts ← pctTokens rest
      some (.byte (16 * a + b) :: ts)
  | '%' :: _ => none
  | c :: rest => do
      let ts ← pctTokens rest
      some (.ch c :: ts)

/-- Continuation byte of a UTF-8 sequence. -/
def utf8Cont (b : Nat) : Bool := 0x80 ≤ b && b ≤ 0xBF

/-- Strict UTF-8 decoding of a byte run (shortest form only, surrogate code
points rejected), as `decodeURIComponent` applies to escaped bytes. -/
def utf8Dec : List Nat → Option (List Char)
  | [] => some []
  | b1 :: rest =>
      if b1 < 0x80 then do
        let cs ← utf8Dec rest
        some (Char.ofNat b1 :: cs)
      else if 0xC2 ≤ b1 ∧ b1 ≤ 0xDF then
        match rest with
        | b2 :: rest2 =>
            if utf8Cont b2 then do
              let cs ← utf8Dec rest2
              some (Char.ofNat ((b1 - 0xC0) * 0x40 + (b2 - 0x80)) :: cs)
            else none
        | _ => none
      else if 0xE0 ≤ b1 ∧ b1 ≤ 0xEF then
        match rest with
        | b2 :: b3 :: rest3 =>
            let lo2 := if b1 = 0xE0 then 0xA0 else 0x80
            let hi2 := if b1 = 0xED then 0x9F else 0xBF
            if lo2 ≤ b2 ∧ b2 ≤ hi2 ∧ utf8Cont b3 then do
              let cs ← utf8Dec rest3
              some (Char.ofNat ((b1 - 0xE0) * 0x1000 + (b2 - 0x80) * 0x40 + (b3 - 0x80)) :: cs)
            else none
        | _ => none
      else if 0xF0 ≤ b1 ∧ b1 ≤ 0xF4 then
        match rest with
        | b2 :: b3 :: b4 :: rest4 =>
            let lo2 := if b1 = 0xF0 then 0x90 else 0x80
            let hi2 := if b1 = 0xF4 then 0x8F else 0xBF
            if lo2 ≤ b2 ∧ b2 ≤ hi2 ∧ utf8Cont b3 ∧ utf8Cont b4 then do
              let cs ← utf8Dec rest4
              some (Char.ofNat
                ((b1 - 0xF0) * 0x40000 + (b2 - 0x80) * 0x1000 + (b3 - 0x80) * 0x40 + (b4 - 0x80)) :: cs)
            else none
        | _ => none
      else none

/-- Reassemble the scanned tokens: each maximal run of escaped bytes is
UTF-8 decoded (`pending` carries the bytes of the current run). -/
def pctAssemble : List PctTok → List Nat → Option (List Char)
  | [], pending => utf8Dec pending
  | .ch c :: rest, pending => do
      let flushed ← utf8Dec pending
      let more ← pctAssemble rest []
      some (flushed ++ c :: more)
  | .byte b :: rest, pending => pctAssemble rest (pending ++ [b])

/-- `decodeURIComponent`; `none` models the thrown URIError. -/
def decodeURIComponentJS (s : String) : Option String := do
  let ts ← pctTokens s.data
  let cs ← pctAssemble ts []
  some ⟨cs⟩

/-!
`JSON.parse`.  The parsed value; numbers keep their raw lexeme (no claim
inspects a numeric value, only whether a value is an array / string /
object).  A failed parse (the thrown SyntaxError) is `none`.
-/

inductive Json where
  | null
  | bool (b : Bool)
  | num (raw : String)
  | str (s : String)
  | arr (elems : List Json)
  | obj (members : List (String × Json))

/-- JSON whitespace. -/
def jsonWs (c : Char) : Bool :=
  c.toNat = 32 || c.toNat = 9 || c.toNat = 10 || c.toNat = 13

def skipWs : List Char → List Char
  | c :: cs => if jsonWs c then skipWs cs else c :: cs
  | [] => []

/-- Four hex digits of a \uXXXX escape. -/
def hex4 (a b c d : Char) : Option Nat := do
  let x1 ← hexDigitVal? a
  let x2 ← hexDigitVal? b
  let x3 ← hexDigitVal? c
  let x4 ← hexDigitVal? d
  some (x1 * 4096 + x2 * 256 + x3 * 16 + x4)

/-- JSON string body after the opening quote: plain characters (unescaped
control characters are an error), the short escapes, and \uXXXX with
surrogate pairs combined.  A lone surrogate (which JS would keep as an
unpaired UTF-16 code unit, a value a Unicode string cannot hold) becomes
U+0000; no claim reaches that corner. -/
def parseJStr : Nat → List Char → List Char → Option (String × List Char)
  | 0, _, _ => none
  | Nat.succ _, [], _ => none
  | Nat.succ _, '"' :: rest, acc => some (⟨acc⟩, rest)
  | Nat.succ fuel, '\\' :: 'u' :: a :: b :: c :: d :: rest, acc =>
      match hex4 a b c d with
      | none => none
      | some n =>
          if 0xD800 ≤ n ∧ n ≤ 0xDBFF then
            match rest with
            | '\\' :: 'u' :: a2 :: b2 :: c2 :: d2 :: rest2 =>
                match hex4 a2 b2 c2 d2 with
                | some m =>
                    if 0xDC00 ≤ m ∧ m ≤ 0xDFFF then
                      parseJStr fuel rest2
                        (acc ++ [Char.ofNat (0x10000 + (n - 0xD800) * 0x400 + (m - 0xDC00))])
                    else parseJStr fuel rest (acc ++ [Char.ofNat n])
                | none => parseJStr fuel rest (acc ++ [Char.ofNat n])
            | _ => parseJStr fuel rest (acc ++ [Char.ofNat n])
          else parseJStr fuel rest (acc ++ [Char.ofNat n])
  | Nat.succ fuel, '\\' :: e :: rest, acc =>
      if e = '"' then parseJStr fuel rest (acc ++ ['"'])
      else if e = '\\' then parseJStr fuel rest (acc ++ ['\\'])
      else if e = '/' then parseJStr fuel rest (acc ++ ['/'])
      else if e = 'b' then parseJStr fuel rest (acc ++ [Char.ofNat 8])
      else if e = 'f' then parseJStr fuel rest (acc ++ [Char.ofNat 12])
      else if e = 'n' then parseJStr fuel rest (acc ++ ['\n'])
      else if e = 'r' then parseJStr fuel rest (acc ++ ['\r'])
      else if e = 't' then parseJStr fuel rest (acc ++ ['\t'])
      else none
  | Nat.succ fuel, c :: rest, acc =>
      if c.toNat < 0x20 then none else parseJStr fuel rest (acc ++ [c])

/-- Longest digit run. -/
def takeDigits (cs : List Char) : List Char × List Char :=
  (cs.takeWhile (·.isDigit), cs.dropWhile (·.isDigit))

/-- Optional fraction part appended to the lexeme so far. -/
def parseFrac (acc : List Char) (r : List Char) : Option (List Char × List Char) :=
  match r with
  | '.' :: r' =>
      let (ds, r'') := takeDigits r'
      if ds.isEmpty then none else some (acc ++ '.' :: ds, r'')
  | _ => some (acc, r)

/-- Optional exponent part appended to the lexeme so far. -/
def parseExp (acc : List Char) (r : List Char) : Option (List Char × List Char) :=
  match r with
  | e :: r' =>
      if e = 'e' ∨ e = 'E' then
        let (sgn, r2) : List Char × List Char :=
          match r' with
          | '+' :: r3 => (['+'], r3)
          | '-' :: r3 => (['-'], r3)
          | _ => ([], r')
        let (ds, r3) := takeDigits r2
        if ds.isEmpty then none else some (acc ++ e :: sgn ++ ds, r3)
      else some (acc, r)
  | [] => some (acc, [])

/-- JSON number lexeme: -? (0 | [1-9][0-9]*) frac? exp?. -/
def parseNum (cs : List Char) : Option (String × List Char) :=
  let (sgn, cs1) : List Char × List Char :=
    match cs with
    | '-' :: r => (['-'], r)
    | _ => ([], cs)
  match cs1 with
  | '0' :: r =>
      let leadingZero : Bool := match r with | d :: _ => d.isDigit | [] => false
      if leadingZero then none
      else do
        let (a, r2) ← parseFrac (sgn ++ ['0']) r
        let (b, r3) ← parseExp a r2
        some (⟨b⟩, r3)
  | c :: _ =>
      if c.isDigit then do
        let (ds, r) := takeDigits cs1
        let (a, r2) ← parseFrac (sgn ++ ds) r
        let (b, r3) ← parseExp a r2
        some (⟨b⟩, r3)
      else none
  | [] => none

mutual

/-- One JSON value (leading whitespace allowed), fuel-bounded. -/
def parseValue : Nat → List Char → Option (Json × List Char)
  | 0, _ => none
  | Nat.succ fuel, cs =>
      match skipWs cs with
      | 'n' :: 'u' :: 'l' :: 'l' :: rest => some (.null, rest)
      | 't' :: 'r' :: 'u' :: 'e' :: rest => some (.bool true, rest)
      | 'f' :: 'a' :: 'l' :: 's' :: 'e' :: rest => some (.bool false, rest)
      | '"' :: rest => do
          let (s, r) ← parseJStr (rest.length + 1) rest []
          some (.str s, r)
      | '[' :: rest =>
          (match skipWs rest with
           | ']' :: r => some (.arr [], r)
           | r => do
               let (vs, r2) ← parseElems fuel r
               some (.arr vs, r2))
      | '{' :: rest =>
          (match skipWs rest with
           | '}' :: r => some (.obj [], r)
           | r => do
               let (ms, r2) ← parseMembers fuel r
               some (.obj ms, r2))
      | cs' => do
          let (raw, r) ← parseNum cs'
          some (.num raw, r)

/-- Comma-separated array elements up to the closing bracket. -/
def parseElems : Nat → List Char → Option (List Json × List Char)
  | 0, _ => none
  | Nat.succ fuel, cs => do
      let (v, r) ← parseValue fuel cs
      match skipWs r with
      | ',' :: r2 => do
          let (vs, r3) ← parseElems fuel r2
          some (v :: vs, r3)
      | ']' :: r2 => some ([v], r2)
      | _ => none

/-- Comma-separated object members up to the closing brace. -/
def parseMembers : Nat → List Char → Option (List (String × Json) × List Char)
  | 0, _ => none
  | Nat.succ fuel, cs =>
      match skipWs cs with
      | '"' :: rest => do
          let (key, r) ← parseJStr (rest.length + 1) rest []
          match skipWs r with
          | ':' :: r2 => do
              let (v, r3) ← parseValue fuel r2
              match skipWs r3 with
              | ',' :: r4 => do
                  let (ms, r5) ← parseMembers fuel r4
                  some ((key, v) :: ms, r5)
              | '}' :: r4 => some ([(key, v)], r4)
              | _ => none
          | _ => none
      | _ => none

end

/-- `JSON.parse`: one value, then only whitespace to the end.  The fuel is
enough because each recursion level consumes at least one character. -/
def jsonParse (s : String) : Option Json := do
  let (v, rest) ← parseValue (2 * s.length + 2) s.data
  match skipWs rest with
  | [] => some v
  | _ => none

/-!
StatusTabs.tsx, lines 34-47: deriving `currentStatus` from the URL.  The
value held by the JS variable `currentStatus` after the if/try/catch block:
a string, `undefined` (from a property access that yields no value), or a
non-string JSON value copied out of the parsed array.
-/

inductive JsVal where
  | jstr (s : String)
  | jundefined
  | jother (j : Json)

/-- Property lookup on a JSON.parse object: duplicate keys keep the last
member, as JS object literals do. -/
def lookupMemberLast (ms : List (String × Json)) (k : String) : Option Json :=
  ms.foldl (fun acc m => if m.1 = k then some m.2 else acc) none

/-- `parsed[0].value`: on null a TypeError is thrown (`none`, caught by the
surrounding catch); on an object the `value` member (undefined when
missing); on any other value (number, boolean, string, array) the property
access yields undefined. -/
def memberValueAccess : Json → Option JsVal
  | .null => none
  | .obj ms =>
      some (match lookupMemberLast ms "value" with
            | none => .jundefined
            | some (.str v) => .jstr v
            | some j => .jother j)
  | _ => some .jundefined

/-- The try-block of StatusTabs.tsx lines 39-46, given a truthy
`statusFilter` string: the value `currentStatus` ends with, or `none` for a
thrown exception (URIError, SyntaxError, TypeError). -/
def decodeStatusTry (s : String) : Option JsVal := do
  let d ← decodeURIComponentJS s
  let j ← jsonParse d
  match j with
  | .arr (x :: _) =>
      match x with
      | .str v => some (.jstr v)
      | _ => memberValueAccess x
  | _ => some (.jstr "all")

/-- `currentStatus` as derived from `searchParams.get("!status_matches")`:
"all" when the parameter is null or empty (falsy), when the parsed value is
not a non-empty array, or when anything in the try-block throws. -/
def decodeStatusFilter (statusFilter : Option String) : JsVal :=
  match statusFilter with
  | none => .jstr "all"
  | some s =>
      if s = "" then .jstr "all"
      else match decodeStatusTry s with
           | some v => v
           | none => .jstr "all"

example : decodeStatusFilter none = .jstr "all" := by rfl
example : decodeStatusFilter (some "") = .jstr "all" := by rfl
example : stringifyStatusArray "in_stock" = "[\"in_stock\"]" := by rfl
example : decodeStatusFilter (some "[\"in_stock\"]") = .jstr "in_stock" := by rfl
example : decodeStatusFilter (some "%") = .jstr "all" := by rfl
example : decodeStatusFilter (some "abc") = .jstr "all" := by rfl
example : decodeStatusFilter (some "5") = .jstr "all" := by rfl
example : decodeStatusFilter (some "[]") = .jstr "all" := by rfl
example : decodeStatusFilter (some "[null]") = .jstr "all" := by rfl
example : decodeStatusFilter (some "[5]") = .jundefined := by rfl
example : decodeStatusFilter (some "[ \x7b \"value\" : \"low_stock\" \x7d ]") = .jstr "low_stock" := by rfl
example : decodeStatusFilter (some "%5B%22a%22%5D") = .jstr "a" := by rfl

/-!
InventoryListPageClient.tsx: the mutually exclusive render states of the
list area (lines 140-218).  `hasFilters` is `!!searchString` (line 141) —
the component reads only the search string; the `!status_matches` query
parameter is passed along so the embedding can state how the choice relates
to it, and is ignored exactly as the component ignores it.
-/

inductive RenderState where
  | errorState
  | emptyDefault
  | emptySearch
  | itemList
deriving DecidableEq

/-- The render state chosen by InventoryListPageClient: error alert, the
"No Inventory Created" empty state, the "No Results Found" empty state, or
the item list. -/
def inventoryRenderState (error : Option String) (count : Nat)
    (searchString : String) (statusFilter : Option String) : RenderState :=
  let hasFilters := searchString ≠ ""
  let isFiltered := hasFilters
  let isEmpty := count = 0 ∧ ¬ isFiltered
  if error.isSome then .errorState
  else if isEmpty then .emptyDefault
  else if count = 0 then .emptySearch
  else .itemList

/-- C1 counterexample: no error, count 0, no search term, but an active
status filter in the URL — the claim requires the "no results for this
filter" empty state, the code renders the "nothing has ever been created"
one, because the empty-state choice never consults the status filter. -/
theorem c1_counterexample :
    inventoryRenderState none 0 "" (some "[\"in_stock\"]") = RenderState.emptyDefault ∧
    RenderState.emptyDefault ≠ RenderState.emptySearch :=
  ⟨rfl, by decide⟩

/-- C1 (amended): with no fetch error and count 0, the rendered empty state
is chosen by the search term alone, whatever the status filter: empty
search term renders the "nothing has ever been created" empty state, a
non-empty search term renders the "no results" empty state. -/
theorem c1_empty_state_by_search (error : Option String) (count : Nat)
    (searchString : String) (statusFilter : Option String)
    (herr : error = none) (hcount : count = 0) :
    (searchString = "" →
      inventoryRenderState error count searchString statusFilter = RenderState.emptyDefault) ∧
    (searchString ≠ "" →
      inventoryRenderState error count searchString statusFilter = RenderState.emptySearch) := by
  subst herr
  subst hcount
  refine ⟨fun hs => ?_, fun hs => ?_⟩
  · simp [inventoryRenderState, hs]
  · simp [inventoryRenderState, hs]

/-- C1 witness: both empty states reached at concrete inputs. -/
theorem c1_witness :
    inventoryRenderState none 0 "" (some "[\"low_stock\"]") = RenderState.emptyDefault ∧
    inventoryRenderState none 0 "widget" none = RenderState.emptySearch :=
  ⟨(c1_empty_state_by_search none 0 "" (some "[\"low_stock\"]") rfl rfl).1 rfl,
   (c1_empty_state_by_search none 0 "widget" none rfl rfl).2 (by decide)⟩

/-- C2 counterexample: changing the filter (to a status key, and also to
"all") leaves an explicit page=1 pair in the query — the page parameter is
present with value "1", not absent as the claim states. -/
theorem c2_counterexample :
    getParam (handleStatusChange [] "in_stock") "page" = some "1" ∧
    getParam (handleStatusChange [] "all") "page" = some "1" :=
  ⟨rfl, rfl⟩

/-- C2 (amended): every filter change through handleStatusChange resets the
page parameter to page 1 by writing the value "1" explicitly: the resulting
query always carries the pair page=1, never the canonical absent form. -/
theorem c2_page_reset_explicit (q : Query) (status : String) :
    getParam (handleStatusChange q status) "page" = some "1" := by
  unfold handleStatusChange
  by_cases h : status = "all"
  · rw [if_pos h, getParam_deleteParam_ne _ "!status_matches" "page" (by decide),
      getParam_setParam_self]
  · rw [if_neg h, getParam_setParam_ne _ "!status_matches" _ "page" (by decide),
      getParam_setParam_self]

/-- The configured status set of the inventory page
(InventoryListPageClient.tsx lines 43-48), in `Object.entries` order. -/
structure StatusConfig where
  label : String
  color : String
deriving DecidableEq

def statusConfig : List (String × StatusConfig) :=
  [("in_stock", ⟨"In Stock", "emerald"⟩),
   ("low_stock", ⟨"Low Stock", "yellow"⟩),
   ("out_of_stock", ⟨"Out of Stock", "red"⟩),
   ("backordered", ⟨"Backordered", "purple"⟩)]

/-- C3: for every status key of the configured status set, encoding the
selection through handleStatusChange and then decoding the resulting
`!status_matches` parameter at render time yields the same key, from any
starting query string. -/
theorem c3_status_roundtrip (q : Query) (k : String)
    (hk : k ∈ statusConfig.map Prod.fst) :
    decodeStatusFilter (getParam (handleStatusChange q k) "!status_matches") =
      JsVal.jstr k := by
  have hcases : k = "in_stock" ∨ k = "low_stock" ∨ k = "out_of_stock" ∨ k = "backordered" := by
    simpa [statusConfig] using hk
  have henc : ∀ k' : String, ¬ k' = "all" →
      getParam (handleStatusChange q k') "!status_matches" =
        some (stringifyStatusArray k') := by
    intro k' h
    unfold handleStatusChange
    rw [if_neg h, getParam_setParam_self]
  rcases hcases with h | h | h | h <;> subst h <;>
    rw [henc _ (by decide)] <;> rfl

/-- C3 witness: the round trip at a concrete query and key. -/
theorem c3_witness :
    decodeStatusFilter
      (getParam (handleStatusChange [("search", "x")] "in_stock") "!status_matches") =
      JsVal.jstr "in_stock" :=
  c3_status_roundtrip [("search", "x")] "in_stock" (by decide)

/-- C4: the decode of the `!status_matches` parameter is a total function
with no error channel: the absent and empty-string parameter decode to the
"all" sentinel; every input on which the try-block throws (bad URL escape,
bad JSON, the TypeError of reading a property of null) is caught and yields
"all"; a JSON non-array and an empty JSON array yield "all"; and an array
whose first element is neither a string nor an object yields the undefined
value without an exception. -/
theorem c4_decode_total :
    decodeStatusFilter none = JsVal.jstr "all" ∧
    decodeStatusFilter (some "") = JsVal.jstr "all" ∧
    (∀ s : String, decodeStatusTry s = none →
      decodeStatusFilter (some s) = JsVal.jstr "all") ∧
    decodeStatusFilter (some "%") = JsVal.jstr "all" ∧
    decodeStatusFilter (some "abc") = JsVal.jstr "all" ∧
    decodeStatusFilter (some "5") = JsVal.jstr "all" ∧
    decodeStatusFilter (some "[]") = JsVal.jstr "all" ∧
    decodeStatusFilter (some "[null]") = JsVal.jstr "all" ∧
    decodeStatusFilter (some "[5]") = JsVal.jundefined := by
  refine ⟨rfl, rfl, ?_, rfl, rfl, rfl, rfl, rfl, rfl⟩
  intro s h
  by_cases hs : s = ""
  · simp [decodeStatusFilter, hs]
  · simp [decodeStatusFilter, hs, h]

/-- Removing a key removes every pair with that key. -/
theorem deleteParam_filter (q : Query) (k : String) :
    (deleteParam q k).filter (fun p => p.1 == k) = [] := by
  induction q with
  | nil => rfl
  | cons p rest ih =>
      obtain ⟨a, b⟩ := p
      by_cases h : a = k
      · simpa [deleteParam, h] using ih
      · simp [deleteParam, h, List.filter, ih]

/-- C5: selecting "all" removes the `!status_matches` parameter entirely:
whatever the starting query, the pushed query answers null for it and holds
no pair with that key at all — in particular no pair carrying the literal
value "all". -/
theorem c5_all_removes_filter (q : Query) :
    getParam (handleStatusChange q "all") "!status_matches" = none ∧
    (handleStatusChange q "all").filter (fun p => p.1 == "!status_matches") = [] := by
  constructor
  · unfold handleStatusChange
    rw [if_pos rfl, getParam_deleteParam_self]
  · unfold handleStatusChange
    rw [if_pos rfl]
    exact deleteParam_filter _ _

/-- C8: frame property of the two URL mutations: a page change touches only
the page parameter — the `!status_matches` filter, the search parameter and
every other key keep their value — and a filter change touches only the
page and `!status_matches` parameters — the search parameter and every
other key keep their value. -/
theorem c8_frame (q : Query) (newPage : Int) (status key : String) :
    (key ≠ "page" →
      getParam (handlePageChange q newPage) key = getParam q key) ∧
    (key ≠ "page" → key ≠ "!status_matches" →
      getParam (handleStatusChange q status) key = getParam q key) := by
  constructor
  · intro hk
    unfold handlePageChange
    by_cases h : newPage ≠ 0 ∧ newPage > 1
    · rw [if_pos h, getParam_setParam_ne _ _ _ _ hk]
    · rw [if_neg h, getParam_deleteParam_ne _ _ _ hk]
  · intro hk hf
    unfold handleStatusChange
    by_cases h : status = "all"
    · rw [if_pos h, getParam_deleteParam_ne _ _ _ hf, getParam_setParam_ne _ _ _ _ hk]
    · rw [if_neg h, getParam_setParam_ne _ _ _ _ hf, getParam_setParam_ne _ _ _ _ hk]

/-- C8 witness: both frame facts at a concrete query. -/
theorem c8_witness :
    getParam (handlePageChange [("search", "w"), ("!status_matches", "[\"x\"]")] 5) "search" =
      some "w" ∧
    getParam (handleStatusChange [("search", "w"), ("sort", "name")] "in_stock") "search" =
      some "w" :=
  ⟨((c8_frame [("search", "w"), ("!status_matches", "[\"x\"]")] 5 "in_stock" "search").1
      (by decide)).trans rfl,
   ((c8_frame [("search", "w"), ("sort", "name")] 5 "in_stock" "search").2
      (by decide) (by decide)).trans rfl⟩

/-!
StatusTabs.tsx lines 27-32 and 67: the `statuses` array built from
`statusConfig` and `statusCounts`, and the active-tab index.
-/

/-- One element of the `statuses` array. -/
structure StatusEntry where
  value : String
  label : String
  count : Int
deriving DecidableEq

/-- JS object property read `statusCounts[value]` on the counts object. -/
def lookupCount : List (String × Int) → String → Option Int
  | [], _ => none
  | (k', n) :: rest, k => if k' = k then some n else lookupCount rest k

/-- `statusCounts[value] || 0`: undefined (missing key) and the falsy 0 both
collapse to 0; any other number passes through. -/
def jsOrZero (x : Option Int) : Int :=
  match x with
  | some n => if n = 0 then 0 else n
  | none => 0

/-- The `statuses` array: one entry per `statusConfig` entry, in order, with
the count defaulted as `statusCounts[value] || 0`. -/
def statuses (config : List (String × StatusConfig)) (counts : List (String × Int)) :
    List StatusEntry :=
  config.map (fun e => ⟨e.1, e.2.label, jsOrZero (lookupCount counts e.1)⟩)

/-- JS strict equality `x === s` of a derived `currentStatus` value against
a string: true only when both are strings and equal. -/
def jsStrictEqStr (v : JsVal) (s : String) : Bool :=
  match v with
  | .jstr t => t == s
  | _ => false

/-- `statuses.findIndex((s) => s.value === currentStatus)`: first matching
index, or -1. -/
def jsFindIndex : List StatusEntry → JsVal → Int
  | [], _ => -1
  | e :: rest, v =>
      if jsStrictEqStr v e.value then 0
      else
        let r := jsFindIndex rest v
        if r = -1 then -1 else r + 1

/-- StatusTabs.tsx line 67:
`currentStatus === "all" ? 0 : statuses.findIndex((s) => s.value === currentStatus) + 1`. -/
def activeIndex (currentStatus : JsVal) (sts : List StatusEntry) : Int :=
  if jsStrictEqStr currentStatus "all" then 0 else jsFindIndex sts currentStatus + 1

theorem jsFindIndex_not_found (l : List StatusEntry) (k : String)
    (h : ∀ e ∈ l, e.value ≠ k) : jsFindIndex l (.jstr k) = -1 := by
  induction l with
  | nil => rfl
  | cons e rest ih =>
      have he : e.value ≠ k := h e (List.mem_cons_self e rest)
      have hcond : jsStrictEqStr (.jstr k) e.value = false := by
        simp [jsStrictEqStr]
        exact fun hh => he hh.symm
      simp [jsFindIndex, hcond, ih (fun x hx => h x (List.mem_cons_of_mem _ hx))]

theorem jsFindIndex_at (l : List StatusEntry) (k : String) :
    ∀ (i : Nat) (hi : i < l.length), (l.get ⟨i, hi⟩).value = k →
    (∀ (j : Nat) (hj : j < l.length), j < i → (l.get ⟨j, hj⟩).value ≠ k) →
    jsFindIndex l (.jstr k) = (i : Int) := by
  induction l with
  | nil =>
      intro i hi
      exact absurd hi (by simp)
  | cons e rest ih =>
      intro i hi hk hfirst
      cases i with
      | zero =>
          have hcond : jsStrictEqStr (.jstr k) e.value = true := by
            simp only [List.get] at hk
            simp [jsStrictEqStr, hk]
          simp [jsFindIndex, hcond]
      | succ i' =>
          have he : e.value ≠ k := by
            have := hfirst 0 (by simp) (Nat.succ_pos i')
            simpa using this
          have hcond : jsStrictEqStr (.jstr k) e.value = false := by
            simp [jsStrictEqStr]
            exact fun hh => he hh.symm
          have hi' : i' < rest.length := by simpa using Nat.lt_of_succ_lt_succ hi
          have ihr : jsFindIndex rest (.jstr k) = (i' : Int) := by
            apply ih i' hi'
            · simpa using hk
            · intro j hj hji
              have := hfirst (j + 1) (by simpa using Nat.succ_lt_succ hj)
                (Nat.succ_lt_succ hji)
              simpa using this
          have hne : (i' : Int) ≠ -1 := by omega
          simp [jsFindIndex, hcond, ihr, hne]

/-- C6: active-tab index computation — selection "all" gives index 0, a
selected key absent from the configured statuses gives index 0, and the
i-th configured key (0-based) gives index i+1 (the tab after the "all"
tab). -/
theorem c6_active_index (config : List (String × StatusConfig))
    (counts : List (String × Int))
    (hnd : (config.map Prod.fst).Nodup) (hall : "all" ∉ config.map Prod.fst) :
    activeIndex (.jstr "all") (statuses config counts) = 0 ∧
    (∀ k : String, k ∉ config.map Prod.fst →
      activeIndex (.jstr k) (statuses config counts) = 0) ∧
    (∀ (i : Nat) (hi : i < config.length),
      activeIndex (.jstr (config.get ⟨i, hi⟩).1) (statuses config counts) = (i : Int) + 1) := by
  have hlen : (statuses config counts).length = config.length := by simp [statuses]
  have hval : ∀ (j : Nat) (hj : j < (statuses config counts).length),
      ((statuses config counts).get ⟨j, hj⟩).value =
        (config.get ⟨j, hlen ▸ hj⟩).1 := by
    intro j hj
    simp [statuses]
  refine ⟨by simp [activeIndex, jsStrictEqStr], fun k hk => ?_, fun i hi => ?_⟩
  · by_cases hka : k = "all"
    · simp [activeIndex, jsStrictEqStr, hka]
    · have hno : ∀ e ∈ statuses config counts, e.value ≠ k := by
        intro e he hek
        apply hk
        have : e.value ∈ (statuses config counts).map (fun x => x.value) :=
          List.mem_map_of_mem _ he
        have hmapped : (statuses config counts).map (fun x => x.value) =
            config.map Prod.fst := by
          simp [statuses]
        rw [hmapped] at this
        exact hek ▸ this
      have hcond : jsStrictEqStr (.jstr k) "all" = false := by
        simp [jsStrictEqStr]
        exact hka
      simp [activeIndex, hcond, jsFindIndex_not_found _ _ hno]
  · set k := (config.get ⟨i, hi⟩).1 with hkdef
    have hkmem : k ∈ config.map Prod.fst := by
      rw [hkdef]
      exact List.mem_map_of_mem _ (config.get_mem i hi)
    have hka : ¬ k = "all" := fun e => hall (e ▸ hkmem)
    have hcond : jsStrictEqStr (.jstr k) "all" = false := by
      simp [jsStrictEqStr]
      exact hka
    have hi2 : i < (statuses config counts).length := hlen ▸ hi
    have hfound : jsFindIndex (statuses config counts) (.jstr k) = (i : Int) := by
      apply jsFindIndex_at _ _ i hi2
      · rw [hval i hi2]
      · intro j hj hji
        rw [hval j hj]
        intro hjk
        have hij : (config.map Prod.fst).get ⟨j, by simpa using hlen ▸ hj⟩ =
            (config.map Prod.fst).get ⟨i, by simpa using hi⟩ := by
          simp only [List.get_map]
          rw [hjk, hkdef]
        have := List.Nodup.get_inj_iff hnd |>.mp hij
        have : j = i := congrArg Fin.val this
        omega
    simp [activeIndex, hcond, hfound]

/-- C6 witness: with the inventory configuration and the sample counts,
selecting the third configured status (0-based index 2, "out_of_stock")
yields active index 3. -/
theorem c6_witness :
    activeIndex (.jstr "out_of_stock")
      (statuses statusConfig
        [("all", 10), ("in_stock", 7), ("low_stock", 0), ("out_of_stock", 2),
         ("backordered", 1)]) = 3 := by
  have h := (c6_active_index statusConfig
    [("all", 10), ("in_stock", 7), ("low_stock", 0), ("out_of_stock", 2),
     ("backordered", 1)] (by decide) (by decide)).2.2 2 (by decide)
  simpa using h

/-- C7: a key configured in `statusConfig` whose count is missing from
`statusCounts` or present as 0 still yields a tab: the `statuses` array has
one entry per configured key regardless of the counts, and that entry
carries count 0. -/
theorem c7_missing_count_zero (config : List (String × StatusConfig))
    (counts : List (String × Int)) (v : String) (cfg : StatusConfig)
    (hv : (v, cfg) ∈ config)
    (hc : lookupCount counts v = none ∨ lookupCount counts v = some 0) :
    (statuses config counts).length = config.length ∧
    StatusEntry.mk v cfg.label 0 ∈ statuses config counts := by
  constructor
  · simp [statuses]
  · have h0 : jsOrZero (lookupCount counts v) = 0 := by
      rcases hc with h | h <;> simp [jsOrZero, h]
    have hmem : (⟨v, cfg.label, jsOrZero (lookupCount counts v)⟩ : StatusEntry) ∈
        statuses config counts := List.mem_map_of_mem _ hv
    rw [h0] at hmem
    exact hmem

/-- C7 witness: the counts of the spec's example, where low_stock is 0 —
the low_stock tab is still built and shows count 0. -/
theorem c7_witness :
    (statuses statusConfig
      [("all", 10), ("in_stock", 7), ("low_stock", 0), ("out_of_stock", 2),
       ("backordered", 1)]).length = statusConfig.length ∧
    StatusEntry.mk "low_stock" "Low Stock" 0 ∈
      statuses statusConfig
        [("all", 10), ("in_stock", 7), ("low_stock", 0), ("out_of_stock", 2),
         ("backordered", 1)] :=
  c7_missing_count_zero statusConfig
    [("all", 10), ("in_stock", 7), ("low_stock", 0), ("out_of_stock", 2),
     ("backordered", 1)]
    "low_stock" ⟨"Low Stock", "yellow"⟩ (by decide) (by decide)

/-!
StatusTabs.tsx lines 67-89: geometry of the active-tab underline.  A tab's
DOM measurement; `tabRefs.current[i]` may be null (not mounted), modelled
as `none`.
-/

structure TabMeasure where
  offsetLeft : Int
  offsetWidth : Int
deriving DecidableEq

/-- `tabRefs.current[activeIndex]?.offsetLeft || 0`. -/
def activeTabOffsetLeft (tabRefs : Nat → Option TabMeasure) (i : Nat) : Int :=
  match tabRefs i with
  | some m => if m.offsetLeft = 0 then 0 else m.offsetLeft
  | none => 0

/-- `tabRefs.current[activeIndex]?.offsetWidth || 0`. -/
def activeTabWidth (tabRefs : Nat → Option TabMeasure) (i : Nat) : Int :=
  match tabRefs i with
  | some m => if m.offsetWidth = 0 then 0 else m.offsetWidth
  | none => 0

/-- `scrollContainerRef.current ? scrollContainerRef.current.scrollLeft : 0`. -/
def scrollOffset (scrollContainer : Option Int) : Int :=
  match scrollContainer with
  | some s => s
  | none => 0

/-- The rendered indicator geometry in pixels. -/
structure IndicatorRect where
  left : Int
  width : Int
deriving DecidableEq

/-- The active-indicator underline's style (lines 83-89):
left = activeTabOffsetLeft - scrollOffset, width = activeTabWidth. -/
def activeIndicatorRect (tabRefs : Nat → Option TabMeasure) (i : Nat)
    (scrollContainer : Option Int) : IndicatorRect :=
  ⟨activeTabOffsetLeft tabRefs i - scrollOffset scrollContainer,
   activeTabWidth tabRefs i⟩

/-- C9: for every index, the rendered indicator's left is the measured
offsetLeft minus the tab strip's scroll offset and its width is the
measured offsetWidth; and when the node at that index is not mounted, both
measurements default to 0, so the indicator has width 0 and offset
contribution 0 (left = 0 - scrollOffset), not an error. -/
theorem c9_indicator_geometry (tabRefs : Nat → Option TabMeasure) (i : Nat)
    (scrollContainer : Option Int) :
    (∀ m : TabMeasure, tabRefs i = some m →
      activeIndicatorRect tabRefs i scrollContainer =
        ⟨m.offsetLeft - scrollOffset scrollContainer, m.offsetWidth⟩) ∧
    (tabRefs i = none →
      activeTabOffsetLeft tabRefs i = 0 ∧ activeTabWidth tabRefs i = 0 ∧
      activeIndicatorRect tabRefs i scrollContainer =
        ⟨0 - scrollOffset scrollContainer, 0⟩) := by
  constructor
  · intro m hm
    unfold activeIndicatorRect activeTabOffsetLeft activeTabWidth
    rw [hm]
    by_cases h1 : m.offsetLeft = 0 <;> by_cases h2 : m.offsetWidth = 0 <;>
      simp [h1, h2]
  · intro hm
    unfold activeIndicatorRect activeTabOffsetLeft activeTabWidth
    rw [hm]
    exact ⟨rfl, rfl, rfl⟩

/-!
generateApiKeyToken (the API-key creation dialog, lines 24-38): 'of_' plus
32 characters indexed into the 62-character alphanumeric alphabet by each
random byte modulo the alphabet length.  The `crypto.getRandomValues`
output is the function's only input, passed here as the byte list. -/

/-- The source's `chars` constant: the base62 alphabet. -/
def chars : String := "ABCDEFGHIJKLMNOPQRSTUVWXYZabcdefghijklmnopqrstuvwxyz0123456789"

/-- The token: the 'of_' prefix, then `chars[randomBytes[i] % chars.length]`
for each byte. -/
def generateApiKeyToken (randomBytes : List Nat) : String :=
  "of_" ++ ⟨randomBytes.map (fun b => chars.data.getD (b % chars.length) 'A')⟩

theorem listGetD_mem {α : Type} (l : List α) (n : Nat) (d : α) (hn : n < l.length) :
    l.getD n d ∈ l := by
  induction l generalizing n with
  | nil => exact absurd hn (by simp)
  | cons x rest ih =>
      cases n with
      | zero => simp [List.getD]
      | succ n' =>
          have hn' : n' < rest.length := by simpa using Nat.lt_of_succ_lt_succ hn
          simp only [List.getD_cons_succ]
          exact List.mem_cons_of_mem _ (ih n' hn')

/-- C10: for every output of the random source (any 32 bytes),
generateApiKeyToken returns exactly 35 characters: the three characters
"of_" followed by 32 characters each drawn from the 62-character
alphanumeric alphabet. -/
theorem c10_token_shape (randomBytes : List Nat) (h : randomBytes.length = 32) :
    (generateApiKeyToken randomBytes).length = 35 ∧
    (generateApiKeyToken randomBytes).data.take 3 = ['o', 'f', '_'] ∧
    ∀ c ∈ (generateApiKeyToken randomBytes).data.drop 3, c ∈ chars.data := by
  have hdata : (generateApiKeyToken randomBytes).data =
      'o' :: 'f' :: '_' ::
        randomBytes.map (fun b => chars.data.getD (b % chars.length) 'A') := rfl
  refine ⟨?_, ?_, ?_⟩
  · have : (generateApiKeyToken randomBytes).length =
        (generateApiKeyToken randomBytes).data.length := rfl
    rw [this, hdata]
    simp [h]
  · rw [hdata]
    rfl
  · rw [hdata]
    intro c hc
    simp only [List.drop_succ_cons, List.drop_zero] at hc
    obtain ⟨b, _, rfl⟩ := List.mem_map.mp hc
    exact listGetD_mem _ _ _ (Nat.mod_lt b (by decide))

/-- C10 witness: the shape facts at a concrete byte list. -/
theorem c10_witness :
    (generateApiKeyToken (List.replicate 32 0)).length = 35 ∧
    (generateApiKeyToken (List.replicate 32 0)).data.take 3 = ['o', 'f', '_'] ∧
    ∀ c ∈ (generateApiKeyToken (List.replicate 32 0)).data.drop 3, c ∈ chars.data :=
  c10_token_shape (List.replicate 32 0) (by decide)
